import Mathlib

/-!
Verification of the rag-chat-ui coordinator backend.

This file gives a shallow embedding of the backend's data model
(`users`, `conversations`, `messages` collections) and of the operations
the specification talks about:

* `ChatService.query` and `ChatService.query_stream`
  (src/backend/app/services/chat_service.py),
* `get_conversation_history` (src/backend/app/routers/chat.py),
* `delete_user` (src/backend/app/routers/admin.py),
* `get_password_hash` / `verify_password` (src/backend/app/services/auth.py),
* `require_role` (src/backend/app/services/authorization.py),
* `_extract_error_message`, `RagApiClient.search` and the error paths of the
  ingestion proxy routes (src/backend/app/services/api_client.py,
  src/backend/app/routers/ingestion.py, src/backend/app/routers/admin.py).

The document store is modelled as explicit state (`Store`), Mongo object ids
as `Nat`, and `datetime.utcnow()` as a logical clock that advances on every
observation, which reflects the monotone, collision-free timestamps the data
model assumes.  Async delegate calls are modelled as function parameters;
fallible code returns `Except`.  The `User` document carries the
`role`/`is_admin`/`is_active` fields used by the admin and authorization
modules (the operative model, as in scripts/create_admin.py).
-/

set_option maxRecDepth 4000

deriving instance DecidableEq for Except

/-- One entry of the message list forwarded to the upstream chat endpoint:
a Python dict `\x7b"role": ..., "content": ...\x7d`. -/
structure RC where
  role : String
  content : String
deriving DecidableEq, Repr

/-- A document of the `users` collection, with the fields read by the
admin router and the authorization gates. -/
structure UserT where
  id : Nat
  email : String
  is_active : Bool
  is_admin : Bool
  role : String
deriving DecidableEq, Repr

/-- A document of the `conversations` collection. -/
structure Conv where
  id : Nat
  title : String
  userId : Nat
  created_at : Nat
  updated_at : Nat
deriving DecidableEq, Repr

/-- A document of the `messages` collection. -/
structure Msg where
  id : Nat
  conv : Nat
  role : String
  content : String
  timestamp : Nat
deriving DecidableEq, Repr

/-- The document store plus the id/time sources: `nextId` models fresh
ObjectId allocation, `clock` models `datetime.utcnow()`. -/
structure Store where
  users : List UserT
  convs : List Conv
  msgs : List Msg
  nextId : Nat
  clock : Nat
deriving DecidableEq, Repr

/-- An HTTPException carrying a status code and a detail message. -/
structure HttpError where
  statusCode : Nat
  detail : String
deriving DecidableEq, Repr

/-- `Conversation.get(conversation_id)`. -/
def findConv (st : Store) (cid : Nat) : Option Conv :=
  st.convs.find? (fun c => c.id == cid)

/-- `User.get(user_id)`. -/
def findUser (st : Store) (uid : Nat) : Option UserT :=
  st.users.find? (fun u => u.id == uid)

/-- `conversation.updated_at = datetime.utcnow(); await conversation.save()`:
rewrite the stored conversation's `updated_at` to the current time and
advance the clock. -/
def bumpConv (st : Store) (cid : Nat) : Store :=
  { st with
    convs := st.convs.map (fun c => if c.id == cid then { c with updated_at := st.clock } else c)
    clock := st.clock + 1 }

/-- `Conversation(title=..., user=user); await conversation.insert()`. -/
def insertConv (st : Store) (ownerId : Nat) (title : String) : Store × Conv :=
  let c : Conv := ⟨st.nextId, title, ownerId, st.clock, st.clock⟩
  ({ st with convs := st.convs ++ [c], nextId := st.nextId + 1, clock := st.clock + 1 }, c)

/-- `Message(conversation=..., role=..., content=...); await msg.insert()`.
This is the store's `append_message`: it writes one message document and
touches nothing else (in particular it does not bump any `updated_at`). -/
def insertMsg (st : Store) (cid : Nat) (role content : String) : Store × Msg :=
  let m : Msg := ⟨st.nextId, cid, role, content, st.clock⟩
  ({ st with msgs := st.msgs ++ [m], nextId := st.nextId + 1, clock := st.clock + 1 }, m)

/-- `Message.find(Message.conversation.id == conversation.id)`. -/
def convMsgs (st : Store) (cid : Nat) : List Msg :=
  st.msgs.filter (fun m => m.conv == cid)

/-- Sort key of `.sort(-Message.timestamp)`: newest first. -/
def tsGe (a b : Msg) : Prop := b.timestamp ≤ a.timestamp

/-- Sort key of `.sort(Message.timestamp)`: oldest first. -/
def tsLe (a b : Msg) : Prop := a.timestamp ≤ b.timestamp

instance : DecidableRel tsGe := fun _ _ => Nat.decLe _ _
instance : DecidableRel tsLe := fun _ _ => Nat.decLe _ _

instance : IsTotal Msg tsGe := ⟨fun a b => (Nat.le_total b.timestamp a.timestamp)⟩
instance : IsTrans Msg tsGe := ⟨fun _ _ _ hab hbc => Nat.le_trans hbc hab⟩
instance : IsTotal Msg tsLe := ⟨fun a b => (Nat.le_total a.timestamp b.timestamp)⟩
instance : IsTrans Msg tsLe := ⟨fun _ _ _ hab hbc => Nat.le_trans hab hbc⟩

/-- `.sort(-Message.timestamp)`. -/
def sortDescTs (l : List Msg) : List Msg := List.insertionSort tsGe l

/-- `.sort(Message.timestamp)`. -/
def sortAscTs (l : List Msg) : List Msg := List.insertionSort tsLe l

/-- History fetch of `ChatService.query` step 3: the conversation's
messages sorted newest-first, limited to 11, reversed to chronological
order, with the just-saved user message dropped by id. -/
def fetchHistory (st : Store) (cid : Nat) (userMsgId : Nat) : List Msg :=
  (((sortDescTs (convMsgs st cid)).take 11).reverse).filter (fun m => m.id ≠ userMsgId)

/-- The full message list forwarded to the upstream `/chat/` endpoint:
the fetched history followed by the current question as a `user` entry. -/
def assembleHistory (st : Store) (cid : Nat) (userMsgId : Nat) (question : String) : List RC :=
  (fetchHistory st cid userMsgId).map (fun m => ⟨m.role, m.content⟩) ++ [⟨"user", question⟩]

/-- Step 1 of both `query` and `query_stream`: resolve or create the
conversation.  A supplied id that is absent, or whose stored owner
reference differs from the requesting user, raises
`ValueError("Conversation not found")`; a valid id gets its `updated_at`
bumped; no id creates a conversation titled from the question
(first 50 characters plus `"..."` when longer). -/
def resolveConv (st : Store) (user : UserT) (conversation_id : Option Nat) (question : String) :
    Except String (Store × Nat) :=
  match conversation_id with
  | some cid =>
    match findConv st cid with
    | none => .error "Conversation not found"
    | some conv =>
      if conv.userId = user.id then .ok (bumpConv st cid, cid)
      else .error "Conversation not found"
  | none =>
    let title := if question.length > 50 then question.take 50 ++ "..." else question
    let (st1, c) := insertConv st user.id title
    .ok (st1, c.id)

/-- The blocking-mode response body: the upstream result augmented with the
resolved conversation id. -/
structure QueryOut where
  answer : String
  conversation_id : Nat
deriving DecidableEq, Repr

/-- Result of one blocking chat turn.  `sent` records the exact message
list passed to the upstream delegate (`none` when the turn aborted before
the upstream call). -/
structure QueryResult where
  store : Store
  sent : Option (List RC)
  outcome : Except String QueryOut
deriving DecidableEq, Repr

/-- `ChatService.query`: resolve conversation, persist the user message,
assemble bounded history, call the upstream delegate with it, persist the
assistant message, return the answer with the conversation id.  A failing
upstream call leaves the already-persisted user message in place. -/
def ChatService.query (st : Store) (user : UserT) (conversation_id : Option Nat)
    (question : String) (upstream : List RC → Except String String) : QueryResult :=
  match resolveConv st user conversation_id question with
  | .error e => ⟨st, none, .error e⟩
  | .ok (st1, cid) =>
    let (st2, user_msg) := insertMsg st1 cid "user" question
    let history := assembleHistory st2 cid user_msg.id question
    match upstream history with
    | .error e => ⟨st2, some history, .error e⟩
    | .ok answer =>
      let (st3, _) := insertMsg st2 cid "assistant" answer
      ⟨st3, some history, .ok ⟨answer, cid⟩⟩

/-- The JSON payload of one parsed SSE frame, abstracted to the two fields
the accumulation loop reads: `event_data.get("type")` and
`event_data.get("data", \x7b\x7d).get("content", "")` (the content with the
empty-string default already applied). -/
structure JEvent where
  ty : Option String
  content : String
deriving DecidableEq, Repr

/-- One line yielded by `RagApiClient.chat_query_stream`, abstracted at the
point the per-line handler inspects it: either a `data: `-prefixed line
with its JSON parse result (`none` when `json.loads` raises
`JSONDecodeError`), or a line without the prefix. -/
inductive Line
  | data (ev : Option JEvent)
  | plain
deriving DecidableEq, Repr

/-- One iteration of the accumulation loop: a well-formed `token` frame
appends its content to the running answer, everything else is ignored. -/
def stepAnswer (acc : String) (l : Line) : String :=
  match l with
  | .data (some e) => if e.ty = some "token" then acc ++ e.content else acc
  | _ => acc

/-- `full_answer` after draining a list of frames. -/
def accumAnswer (lines : List Line) : String := lines.foldl stepAnswer ""

/-- The request body `chat_query_stream` posts to the upstream
`/chat/query/stream` endpoint.  It carries the bare question (together with
scalar generation parameters, omitted here): it has no message-list field
and no conversation history. -/
structure StreamReq where
  question : String
deriving DecidableEq, Repr

/-- One event yielded to the streaming client: the synthetic
`conversation_id` event sent first, or an upstream line relayed verbatim. -/
inductive YieldEvent
  | convId (cid : Nat)
  | upstreamLine (l : Line)
deriving DecidableEq, Repr

/-- Result of one streaming chat turn.  `sentReq` records the exact request
passed to the upstream delegate (`none` when the turn aborted before the
upstream call); `yields` records the events the generator yielded;
`outcome` is `.error` when the generator raised before completing. -/
structure StreamResult where
  store : Store
  sentReq : Option StreamReq
  yields : List YieldEvent
  outcome : Except String Unit
deriving DecidableEq, Repr

/-- `ChatService.query_stream`: resolve conversation, persist the user
message, yield the conversation-id event, relay the upstream frames while
accumulating `token` contents, and — only when the stream was fully
drained and the accumulated answer is nonempty — persist the assistant
message.  The upstream delegate maps the request to the frames it yielded
plus `none` when it ran to completion or `some msg` when it was aborted or
errored after those frames. -/
def ChatService.query_stream (st : Store) (user : UserT) (conversation_id : Option Nat)
    (question : String) (upstream : StreamReq → List Line × Option String) : StreamResult :=
  match resolveConv st user conversation_id question with
  | .error e => ⟨st, none, [], .error e⟩
  | .ok (st1, cid) =>
    let (st2, _) := insertMsg st1 cid "user" question
    let req : StreamReq := ⟨question⟩
    let (lines, abortMsg) := upstream req
    let yields := YieldEvent.convId cid :: lines.map YieldEvent.upstreamLine
    match abortMsg with
    | some emsg => ⟨st2, some req, yields, .error emsg⟩
    | none =>
      let full_answer := accumAnswer lines
      if full_answer = "" then ⟨st2, some req, yields, .ok ()⟩
      else
        let (st3, _) := insertMsg st2 cid "assistant" full_answer
        ⟨st3, some req, yields, .ok ()⟩

/-- The body returned for one message by `GET /chat/conversations/(id)`. -/
structure MessageResponse where
  role : String
  content : String
  timestamp : Nat
deriving DecidableEq, Repr

/-- `get_conversation_history` (src/backend/app/routers/chat.py): a missing
conversation and an ownership mismatch both yield the same HTTP 404
`"Conversation not found"`; otherwise the conversation's messages are
returned in chronological order. -/
def get_conversation_history (st : Store) (current_user : UserT) (conv_id : Nat) :
    Except HttpError (List MessageResponse) :=
  match findConv st conv_id with
  | none => .error ⟨404, "Conversation not found"⟩
  | some conv =>
    if conv.userId = current_user.id then
      .ok ((sortAscTs (convMsgs st conv_id)).map (fun m => ⟨m.role, m.content, m.timestamp⟩))
    else .error ⟨404, "Conversation not found"⟩

/-- UTF-8 bytes of a Python `str`, as `str.encode('utf-8')` produces them:
the concatenated UTF-8 encodings of the string's code points. -/
def utf8Bytes (s : String) : List UInt8 := s.data.flatMap String.utf8EncodeChar

/-- `password.encode('utf-8')[:72]`: the truncated byte sequence the auth
module feeds to bcrypt, on both the hashing and the verification path. -/
def truncatedPasswordBytes (password : String) : List UInt8 :=
  (utf8Bytes password).take 72

/-- `get_password_hash` (src/backend/app/services/auth.py), parametrised by
the bcrypt primitives it calls: it hashes only the first 72 UTF-8 bytes of
the password against a fresh salt. -/
def get_password_hash (hashpw : List UInt8 → List UInt8 → List UInt8) (salt : List UInt8)
    (password : String) : List UInt8 :=
  hashpw (truncatedPasswordBytes password) salt

/-- `verify_password` (src/backend/app/services/auth.py): checks only the
first 72 UTF-8 bytes of the plain password against the stored hash, and
maps any exception from the bcrypt check to `false`. -/
def verify_password (checkpw : List UInt8 → List UInt8 → Except String Bool)
    (plain_password : String) (hashed_password : String) : Bool :=
  match checkpw (truncatedPasswordBytes plain_password) (utf8Bytes hashed_password) with
  | .ok b => b
  | .error _ => false

/-- `require_role(required_role)` (src/backend/app/services/authorization.py):
the returned checker rejects with HTTP 403 exactly when the user's role
differs from the required one and the user's `is_admin` flag is false. -/
def require_role (required_role : String) (current_user : UserT) : Except HttpError UserT :=
  if current_user.role ≠ required_role ∧ ¬ current_user.is_admin then
    .error ⟨403, "Role \x27" ++ required_role ++ "\x27 required"⟩
  else .ok current_user

/-- `User.find((role superadmin, is_active true)).count()`: the number of
active superadmin users. -/
def activeSuperadminCount (st : Store) : Nat :=
  (st.users.filter (fun u => u.role == "superadmin" && u.is_active)).length

/-- `delete_user` (src/backend/app/routers/admin.py): self-deletion is
rejected; a missing user is a 404; deleting a superadmin is rejected when
at most one active superadmin exists; otherwise the user's conversations'
messages, the conversations, and the user itself are deleted. -/
def delete_user (st : Store) (current_user : UserT) (user_id : Nat) :
    Store × Except HttpError String :=
  if user_id = current_user.id then
    (st, .error ⟨400, "You cannot delete your own administrative account."⟩)
  else
    match findUser st user_id with
    | none => (st, .error ⟨404, "User not found"⟩)
    | some user =>
      if user.role = "superadmin" ∧ activeSuperadminCount st ≤ 1 then
        (st, .error ⟨400, "Cannot delete the last active superadmin."⟩)
      else
        let conv_ids := (st.convs.filter (fun c => c.userId == user.id)).map (fun c => c.id)
        let msgs1 := st.msgs.filter (fun m => !conv_ids.contains m.conv)
        let convs1 := st.convs.filter (fun c => !(c.userId == user.id))
        let users1 := st.users.filter (fun u => !(u.id == user.id))
        ({ st with users := users1, convs := convs1, msgs := msgs1 },
          .ok ("User " ++ user.email ++ " and all associated data deleted permanently"))

/-- The upstream HTTP response attached to an `httpx.HTTPStatusError`,
abstracted to the fields `_extract_error_message` reads.  `jsonDetail` is
`some d` exactly when `response.json()` parses and yields a body with a
truthy `detail` field stringifying to `d`; it is `none` both when the body
is not JSON and when `detail` is absent or falsy. -/
structure UpResponse where
  statusCode : Nat
  text : String
  jsonDetail : Option String
deriving DecidableEq, Repr

/-- The exceptions a delegate call can raise, mirroring the `isinstance`
branches of `_extract_error_message`: `httpx.HTTPStatusError` (non-2xx),
`httpx.ConnectError`, `httpx.TimeoutException`, or any other exception
with its `str(e)` rendering and type name. -/
inductive UpErr
  | httpStatus (resp : UpResponse)
  | connect
  | timeout
  | otherExc (msg : String) (tyName : String)
deriving DecidableEq, Repr

/-- `_extract_error_message` (src/backend/app/services/api_client.py):
best-effort extraction — JSON `detail` field if present and truthy, else
the raw body truncated to 200 characters, else a generic description. -/
def extract_error_message : UpErr → String
  | .httpStatus r =>
    match r.jsonDetail with
    | some d => "API error (" ++ toString r.statusCode ++ "): " ++ d
    | none =>
      "API error (" ++ toString r.statusCode ++ "): " ++
        (if r.text ≠ "" then r.text.take 200 else "No response body")
  | .connect => "Connection failed: Could not connect to RAG API"
  | .timeout => "Request timed out"
  | .otherExc msg tyName => if msg ≠ "" then msg else "Unknown error: " ++ tyName

/-- The error-handling shape of the `/ingest/etl/status`, `/ingest/etl/jobs`
and `/ingest/etl/jobs/(id)/logs` routes (src/backend/app/routers/ingestion.py):
an `httpx.HTTPStatusError` is re-raised with the upstream status code and
the extracted message, any other exception as a 500 with the extracted
message; a successful delegate result is returned unchanged. -/
def etl_status_route {α : Type} (result : Except UpErr α) : Except HttpError α :=
  match result with
  | .ok v => .ok v
  | .error e =>
    match e with
    | .httpStatus r => .error ⟨r.statusCode, extract_error_message e⟩
    | _ => .error ⟨500, extract_error_message e⟩

/-- The error-handling shape of the `/ingest/upload`, `/ingest/etl/ingest`
and `/ingest/etl/submit` routes (src/backend/app/routers/ingestion.py):
every exception, including a non-2xx upstream response, is collapsed to a
500 whose detail is Python's `str(e)` (a rendering supplied by the
exception class, passed in here as `strE`). -/
def upload_route {α : Type} (strE : UpErr → String) (result : Except UpErr α) :
    Except HttpError α :=
  match result with
  | .ok v => .ok v
  | .error e => .error ⟨500, strE e⟩

/-- `RagApiClient.search` (src/backend/app/services/api_client.py): the
delegate result carries `data.get("results", [])` on success; every
exception is logged and absorbed into an empty result list. -/
def RagApiClient.search {α : Type} (result : Except UpErr (List α)) : List α :=
  match result with
  | .ok results => results
  | .error _ => []

/-- The error handling of `POST /evaluation/feedback`
(src/backend/app/routers/evaluation.py): the `except` block only logs, so
the handler falls off the end and returns Python's `None`, which FastAPI
serializes as a 200 response with a `null` body — every delegate failure
on this endpoint is silently absorbed. -/
def submit_feedback_route {α : Type} (result : Except UpErr α) : Except HttpError (Option α) :=
  match result with
  | .ok v => .ok (some v)
  | .error _ => .ok none

/-- The ETL-job counters of the admin dashboard. -/
structure EtlStats where
  total_jobs : Nat
  pending : Nat
  running : Nat
  completed : Nat
  failed : Nat
deriving DecidableEq, Repr

/-- The all-zero fallback the dashboard reports when the delegate is
unreachable. -/
def zeroEtlStats : EtlStats := ⟨0, 0, 0, 0, 0⟩

/-- One classification step of `get_dashboard_stats`
(src/backend/app/routers/admin.py), over a job's lowercased status. -/
def classifyJob (acc : EtlStats) (statusLower : String) : EtlStats :=
  if statusLower = "pending" ∨ statusLower = "queued" then
    { acc with pending := acc.pending + 1 }
  else if statusLower = "running" ∨ statusLower = "processing" then
    { acc with running := acc.running + 1 }
  else if statusLower = "completed" ∨ statusLower = "success" then
    { acc with completed := acc.completed + 1 }
  else if statusLower = "failed" ∨ statusLower = "error" then
    { acc with failed := acc.failed + 1 }
  else acc

/-- The ETL section of `get_dashboard_stats`: on any delegate failure the
zero-value fallback is returned; on success the jobs (given by their
lowercased status strings) are counted. -/
def dashboard_etl_stats (result : Except UpErr (List String)) : EtlStats :=
  match result with
  | .error _ => zeroEtlStats
  | .ok jobs => jobs.foldl classifyJob { zeroEtlStats with total_jobs := jobs.length }

/-- Well-formedness of a reachable store: message ids are below the id
source and strictly increasing along the collection, message timestamps
are below the clock and strictly increasing, conversation ids are below
the id source, and conversation `updated_at` stamps are below the clock. -/
abbrev StoreWF (st : Store) : Prop :=
  (∀ m ∈ st.msgs, m.id < st.nextId) ∧
  List.Pairwise (fun a b : Msg => a.id < b.id) st.msgs ∧
  (∀ m ∈ st.msgs, m.timestamp < st.clock) ∧
  List.Pairwise (fun a b : Msg => a.timestamp < b.timestamp) st.msgs ∧
  (∀ m ∈ st.msgs, m.conv < st.nextId) ∧
  (∀ c ∈ st.convs, c.id < st.nextId) ∧
  (∀ c ∈ st.convs, c.updated_at < st.clock)

/-! Helper lemmas about the store operations and the history sort. -/

theorem sortDescTs_perm (l : List Msg) : List.Perm (sortDescTs l) l :=
  List.perm_insertionSort tsGe l

theorem sortDescTs_sorted (l : List Msg) : List.Pairwise tsGe (sortDescTs l) :=
  List.sorted_insertionSort tsGe l

theorem sortDescTs_append_max (l : List Msg) (u : Msg)
    (h : ∀ m ∈ l, m.timestamp < u.timestamp) :
    sortDescTs (l ++ [u]) = u :: sortDescTs l := by
  induction l with
  | nil => rfl
  | cons b l ih =>
    have hb : b.timestamp < u.timestamp := h b (by simp)
    have ih' := ih (fun m hm => h m (by simp [hm]))
    have hstep : sortDescTs ((b :: l) ++ [u]) = List.orderedInsert tsGe b (sortDescTs (l ++ [u])) := rfl
    rw [hstep, ih']
    show List.orderedInsert tsGe b (u :: sortDescTs l) = u :: List.orderedInsert tsGe b (sortDescTs l)
    have hneg : ¬ tsGe b u := by simp only [tsGe]; omega
    simp only [List.orderedInsert, if_neg hneg]

theorem pairwise_gt_sortDescTs (l : List Msg)
    (hnd : List.Pairwise (fun a b : Msg => a.timestamp < b.timestamp) l) :
    List.Pairwise (fun a b : Msg => b.timestamp < a.timestamp) (sortDescTs l) := by
  have hsorted : List.Pairwise tsGe (sortDescTs l) := sortDescTs_sorted l
  have hne : List.Pairwise (fun a b : Msg => a.timestamp ≠ b.timestamp) (sortDescTs l) := by
    have h1 : List.Pairwise (fun a b : Nat => a ≠ b) (l.map (fun m => m.timestamp)) := by
      rw [List.pairwise_map]
      exact hnd.imp (fun hab => Nat.ne_of_lt hab)
    have h2 : List.Perm ((sortDescTs l).map (fun m => m.timestamp)) (l.map (fun m => m.timestamp)) :=
      (sortDescTs_perm l).map _
    have h3 : List.Nodup ((sortDescTs l).map (fun m => m.timestamp)) :=
      h2.nodup_iff.mpr h1
    have h4 : List.Pairwise (fun a b : Nat => a ≠ b) ((sortDescTs l).map (fun m => m.timestamp)) := h3
    rw [List.pairwise_map] at h4
    exact h4
  exact (hsorted.and hne).imp (fun hab => Nat.lt_of_le_of_ne hab.1 (fun he => hab.2 he.symm))

theorem filter_ne_id_eq_self (l : List Msg) (mid : Nat) (h : ∀ m ∈ l, m.id ≠ mid) :
    l.filter (fun m => m.id ≠ mid) = l := by
  apply List.filter_eq_self.mpr
  intro m hm
  simpa using h m hm

theorem convMsgs_insertMsg (st : Store) (cid : Nat) (role content : String) :
    convMsgs (insertMsg st cid role content).1 cid
      = convMsgs st cid ++ [(insertMsg st cid role content).2] := by
  simp [convMsgs, insertMsg, List.filter_append]

theorem convMsgs_bumpConv (st : Store) (cid cid' : Nat) :
    convMsgs (bumpConv st cid') cid = convMsgs st cid := rfl

theorem insertMsg_convs (st : Store) (cid : Nat) (role content : String) :
    (insertMsg st cid role content).1.convs = st.convs := rfl

theorem findConv_bumpConv (st : Store) (cid : Nat) :
    findConv (bumpConv st cid) cid
      = (findConv st cid).map (fun c => { c with updated_at := st.clock }) := by
  simp only [findConv, bumpConv]
  induction st.convs with
  | nil => rfl
  | cons c l ih =>
    by_cases h : c.id = cid
    · simp [List.find?, h]
    · have hb : (c.id == cid) = false := by simpa using h
      simpa [List.find?, hb] using ih

theorem fetchHistory_eq (st2 : Store) (cid : Nat) (um : Msg) (old : List Msg)
    (hconv : convMsgs st2 cid = old ++ [um])
    (hts : ∀ m ∈ old, m.timestamp < um.timestamp)
    (hid : ∀ m ∈ old, m.id ≠ um.id) :
    fetchHistory st2 cid um.id = ((sortDescTs old).take 10).reverse := by
  have hsort : sortDescTs (convMsgs st2 cid) = um :: sortDescTs old := by
    rw [hconv]; exact sortDescTs_append_max old um hts
  have hmem : ∀ m ∈ (sortDescTs old).take 10, m.id ≠ um.id := by
    intro m hm
    exact hid m ((sortDescTs_perm old).mem_iff.mp (List.take_subset _ _ hm))
  have htake : (sortDescTs (convMsgs st2 cid)).take 11 = um :: (sortDescTs old).take 10 := by
    rw [hsort]; rfl
  unfold fetchHistory
  rw [htake, List.reverse_cons, List.filter_append]
  have h1 : ((sortDescTs old).take 10).reverse.filter (fun m => m.id ≠ um.id)
      = ((sortDescTs old).take 10).reverse := by
    apply filter_ne_id_eq_self
    intro m hm
    rw [List.mem_reverse] at hm
    exact hmem m hm
  have h2 : [um].filter (fun m => decide (m.id ≠ um.id)) = [] := by simp
  rw [h1, h2, List.append_nil]

theorem fetchHistory_shape (old : List Msg)
    (hnd : List.Pairwise (fun a b : Msg => a.timestamp < b.timestamp) old) :
    List.Pairwise (fun a b : Msg => a.timestamp < b.timestamp) (((sortDescTs old).take 10).reverse)
      ∧ (((sortDescTs old).take 10).reverse).length ≤ 10 := by
  constructor
  · have h1 := pairwise_gt_sortDescTs old hnd
    have h2 : List.Pairwise (fun a b : Msg => b.timestamp < a.timestamp) ((sortDescTs old).take 10) :=
      h1.sublist (List.take_sublist 10 _)
    rw [List.pairwise_reverse]
    exact h2
  · rw [List.length_reverse]
    exact List.length_take_le 10 (sortDescTs old)

theorem mem_of_mem_fetch (old : List Msg) (m : Msg)
    (hm : m ∈ ((sortDescTs old).take 10).reverse) : m ∈ old := by
  rw [List.mem_reverse] at hm
  exact (sortDescTs_perm old).mem_iff.mp (List.take_subset _ _ hm)

/-! Concrete fixtures used by the witnesses below. -/

/-- A store with one conversation (id 1, owned by user 7) holding two
messages, well-formed. -/
def stW : Store :=
  ⟨[], [⟨1, "t", 7, 0, 1⟩], [⟨2, 1, "user", "m1", 2⟩, ⟨3, 1, "assistant", "a1", 3⟩], 4, 4⟩

/-- The owner of conversation 1 in `stW`. -/
def uW : UserT := ⟨7, "u@example.com", true, false, "user"⟩

/-- A different, non-admin user. -/
def uOther : UserT := ⟨8, "o@example.com", true, false, "user"⟩

/-- A blocking upstream delegate that always answers. -/
def upstreamOkW : List RC → Except String String := fun _ => .ok "ans"

/-- A streaming upstream delegate that yields one token frame and
completes. -/
def upstreamStreamW : StreamReq → List Line × Option String :=
  fun _ => ([Line.data (some ⟨some "token", "tok"⟩)], none)

/-- Resolution-success hypothesis shared by the chat-turn claims: the turn
either creates a fresh conversation or was given an id owned by the
requesting user. -/
abbrev ResolvedOk (st : Store) (user : UserT) (cid? : Option Nat) : Prop :=
  cid? = none ∨ ∃ cid conv, cid? = some cid ∧ findConv st cid = some conv ∧ conv.userId = user.id

/-- C1: a chat turn (blocking or streaming) or a conversation lookup that
supplies a conversation id fails with the single error
`"Conversation not found"` both when the conversation does not exist and
when its stored owner differs from the requesting user — the two cases
produce literally identical results, so they are indistinguishable to the
caller and no `forbidden` error is involved — and the store is returned
unchanged, so the turn aborts before any message is persisted. -/
theorem C1_not_found_indistinguishable (st : Store) (user : UserT) (cid : Nat) (question : String)
    (upstream : List RC → Except String String)
    (upstreamS : StreamReq → List Line × Option String)
    (h : findConv st cid = none ∨ ∃ conv, findConv st cid = some conv ∧ conv.userId ≠ user.id) :
    ChatService.query st user (some cid) question upstream
        = ⟨st, none, .error "Conversation not found"⟩ ∧
    ChatService.query_stream st user (some cid) question upstreamS
        = ⟨st, none, [], .error "Conversation not found"⟩ ∧
    get_conversation_history st user cid = .error ⟨404, "Conversation not found"⟩ := by
  have hres : resolveConv st user (some cid) question = .error "Conversation not found" := by
    rcases h with h | ⟨conv, hc, hne⟩
    · simp [resolveConv, h]
    · simp [resolveConv, hc, hne]
  refine ⟨?_, ?_, ?_⟩
  · simp [ChatService.query, hres]
  · simp [ChatService.query_stream, hres]
  · rcases h with h | ⟨conv, hc, hne⟩
    · simp [get_conversation_history, h]
    · simp [get_conversation_history, hc, hne]

/-- Witness for C1 at a concrete input: user 8 asking for user 7's
conversation gets the not-found error from all three operations and
nothing is persisted. -/
theorem C1_witness :
    ChatService.query stW uOther (some 1) "q" upstreamOkW
        = ⟨stW, none, .error "Conversation not found"⟩ ∧
    ChatService.query_stream stW uOther (some 1) "q" upstreamStreamW
        = ⟨stW, none, [], .error "Conversation not found"⟩ ∧
    get_conversation_history stW uOther 1 = .error ⟨404, "Conversation not found"⟩ :=
  C1_not_found_indistinguishable stW uOther 1 "q" upstreamOkW upstreamStreamW
    (Or.inr ⟨⟨1, "t", 7, 0, 1⟩, by decide, by decide⟩)

/-- C9: the `require_role(r)` gate admits any user whose `is_admin` flag is
true, regardless of the required role and of the user's own role value; a
non-admin user is admitted exactly when the role matches, and otherwise
rejected with HTTP 403. -/
theorem C9_require_role_gate (r : String) (u : UserT) :
    (u.is_admin = true → require_role r u = .ok u) ∧
    (u.is_admin = false → u.role = r → require_role r u = .ok u) ∧
    (u.is_admin = false → u.role ≠ r →
      require_role r u = .error ⟨403, "Role \x27" ++ r ++ "\x27 required"⟩) := by
  refine ⟨fun h => ?_, fun h1 h2 => ?_, fun h1 h2 => ?_⟩
  · simp [require_role, h]
  · simp [require_role, h2]
  · simp [require_role, h1, h2]

/-- Witness for C9 at concrete inputs: an `is_admin` user with role
`"user"` passes a `"superadmin"` role gate; a non-admin with matching role
passes; a non-admin with a different role is rejected with 403. -/
theorem C9_witness :
    require_role "superadmin" ⟨1, "a", true, true, "user"⟩ = .ok ⟨1, "a", true, true, "user"⟩ ∧
    require_role "admin" ⟨2, "b", true, false, "admin"⟩ = .ok ⟨2, "b", true, false, "admin"⟩ ∧
    require_role "admin" ⟨3, "c", true, false, "user"⟩
      = .error ⟨403, "Role \x27admin\x27 required"⟩ :=
  ⟨(C9_require_role_gate "superadmin" ⟨1, "a", true, true, "user"⟩).1 rfl,
   (C9_require_role_gate "admin" ⟨2, "b", true, false, "admin"⟩).2.1 rfl rfl,
   by simpa using (C9_require_role_gate "admin" ⟨3, "c", true, false, "user"⟩).2.2 rfl (by decide)⟩

/-- C7: the auth module operates on only the first 72 UTF-8 bytes of a
password: any two passwords agreeing on those bytes hash identically
(against the same salt) and verify identically against every stored hash,
so entropy beyond the limit is discarded. -/
theorem C7_password_truncation (p1 p2 : String)
    (h : (utf8Bytes p1).take 72 = (utf8Bytes p2).take 72) :
    (∀ hashpw salt, get_password_hash hashpw salt p1 = get_password_hash hashpw salt p2) ∧
    (∀ checkpw hashed, verify_password checkpw p1 hashed = verify_password checkpw p2 hashed) := by
  have ht : truncatedPasswordBytes p1 = truncatedPasswordBytes p2 := h
  exact ⟨fun hashpw salt => by simp [get_password_hash, ht],
         fun checkpw hashed => by simp [verify_password, ht]⟩

/-- An 80-character password of `a` characters. -/
def pwLong1 : String := "aaaaaaaaaaaaaaaaaaaaaaaaaaaaaaaaaaaaaaaaaaaaaaaaaaaaaaaaaaaaaaaaaaaaaaaaaaaaaaaa"

/-- A password equal to `pwLong1` on its first 72 bytes but different
beyond them. -/
def pwLong2 : String := "aaaaaaaaaaaaaaaaaaaaaaaaaaaaaaaaaaaaaaaaaaaaaaaaaaaaaaaaaaaaaaaaaaaaaaaabbbb"

/-- A stand-in bcrypt hash function for the witness. -/
def hashpwW : List UInt8 → List UInt8 → List UInt8 := fun pw salt => pw ++ salt

/-- A stand-in bcrypt check function for the witness. -/
def checkpwW : List UInt8 → List UInt8 → Except String Bool :=
  fun pw h => .ok (pw.length == h.length)

/-- Witness for C7 at concrete inputs: two passwords differing only after
byte 72 produce the same hash and the same verification result. -/
theorem C7_witness :
    get_password_hash hashpwW [1] pwLong1 = get_password_hash hashpwW [1] pwLong2 ∧
    verify_password checkpwW pwLong1 "h" = verify_password checkpwW pwLong2 "h" :=
  ⟨(C7_password_truncation pwLong1 pwLong2 (by decide)).1 hashpwW [1],
   (C7_password_truncation pwLong1 pwLong2 (by decide)).2 checkpwW "h"⟩

/-- C5 (amended): `_extract_error_message` maps a non-2xx upstream response
to a message carrying the upstream status code and a best-effort extracted
detail (JSON `detail` field if present and truthy, else the raw body
truncated to 200 characters, else a generic description), and connection
failures and timeouts to fixed descriptions; the ETL status/jobs/logs
routes re-raise non-2xx failures with the upstream status code and that
extracted message and any other delegate failure as a 500 with the
extracted message; the upload/ingest/submit routes surface every delegate
failure as a 500 carrying Python's `str(e)` (so they do not carry the
upstream status code); three paths absorb delegate failures: the `search`
client method returns an empty list, the dashboard ETL statistics report
zero counters, and the feedback-submission endpoint logs the failure and
returns success with a null body. -/
theorem C5_amended_error_surfacing :
    (∀ (r : UpResponse) (d : String), r.jsonDetail = some d →
      extract_error_message (.httpStatus r)
        = "API error (" ++ toString r.statusCode ++ "): " ++ d) ∧
    (∀ r : UpResponse, r.jsonDetail = none → r.text ≠ "" →
      extract_error_message (.httpStatus r)
        = "API error (" ++ toString r.statusCode ++ "): " ++ r.text.take 200) ∧
    (∀ r : UpResponse, r.jsonDetail = none → r.text = "" →
      extract_error_message (.httpStatus r)
        = "API error (" ++ toString r.statusCode ++ "): " ++ "No response body") ∧
    (extract_error_message .connect = "Connection failed: Could not connect to RAG API" ∧
      extract_error_message .timeout = "Request timed out") ∧
    (∀ r : UpResponse,
      etl_status_route (α := Unit) (.error (.httpStatus r))
        = .error ⟨r.statusCode, extract_error_message (.httpStatus r)⟩) ∧
    (∀ e : UpErr, (∀ r, e ≠ .httpStatus r) →
      etl_status_route (α := Unit) (.error e) = .error ⟨500, extract_error_message e⟩) ∧
    (∀ (strE : UpErr → String) (e : UpErr),
      upload_route (α := Unit) strE (.error e) = .error ⟨500, strE e⟩) ∧
    (∀ e : UpErr, RagApiClient.search (α := Unit) (.error e) = []) ∧
    (∀ e : UpErr, dashboard_etl_stats (.error e) = zeroEtlStats) ∧
    (∀ e : UpErr, submit_feedback_route (α := Unit) (.error e) = .ok none) := by
  refine ⟨?_, ?_, ?_, ⟨rfl, rfl⟩, ?_, ?_, ?_, ?_, ?_, ?_⟩
  · intro r d hd; simp [extract_error_message, hd]
  · intro r hd ht; simp [extract_error_message, hd, ht]
  · intro r hd ht; simp [extract_error_message, hd, ht]
  · intro r; rfl
  · intro e he
    cases e with
    | httpStatus r => exact absurd rfl (he r)
    | connect => rfl
    | timeout => rfl
    | otherExc m t => rfl
  · intro strE e; rfl
  · intro e; rfl
  · intro e; rfl
  · intro e; rfl

/-- Witness for C5 (amended) at concrete inputs. -/
theorem C5_witness :
    extract_error_message (.httpStatus ⟨502, "oops", none⟩) = "API error (502): oops" ∧
    etl_status_route (α := Unit) (.error (.httpStatus ⟨404, "", some "job not found"⟩))
      = .error ⟨404, "API error (404): job not found"⟩ ∧
    etl_status_route (α := Unit) (.error .timeout) = .error ⟨500, "Request timed out"⟩ := by
  refine ⟨?_, ?_, ?_⟩
  · have h1 := C5_amended_error_surfacing.2.1 ⟨502, "oops", none⟩ rfl (by decide)
    rw [h1]; decide
  · have h2 := C5_amended_error_surfacing.2.2.2.2.1 ⟨404, "", some "job not found"⟩
    rw [h2]; decide
  · have h3 := C5_amended_error_surfacing.2.2.2.2.2.1 UpErr.timeout (by intro r h; cases h)
    rw [h3]; decide

/-- C5 counterexample: the claim as stated requires every non-2xx upstream
failure to be surfaced carrying the upstream status code, with the
best-effort extracted message, allowing only endpoint-defined zero-value
fallbacks such as the dashboard stats.  At the upload/ingest/submit routes
a 404 upstream response (with a JSON `detail` present) is surfaced as
status 500 with the raw `str(e)` text instead; the `search` client method
absorbs a connection failure into an empty result list inside the client;
and the feedback-submission endpoint absorbs a connection failure
entirely, answering success with a null body rather than any failure. -/
theorem C5_counterexample :
    upload_route (α := Unit) (fun _ => "Client error 404 for url")
        (.error (.httpStatus ⟨404, "Not Found", some "missing"⟩))
      = .error ⟨500, "Client error 404 for url"⟩ ∧
    (500 : Nat) ≠ 404 ∧
    RagApiClient.search (α := Unit) (.error .connect) = [] ∧
    submit_feedback_route (α := Unit) (.error .connect) = .ok none :=
  ⟨rfl, by decide, rfl, rfl⟩

theorem query_unfold (st : Store) (user : UserT) (cid? : Option Nat) (question : String)
    (upstream : List RC → Except String String) (st1 : Store) (cid : Nat)
    (hres : resolveConv st user cid? question = .ok (st1, cid)) :
    ChatService.query st user cid? question upstream =
      (match upstream (assembleHistory (insertMsg st1 cid "user" question).1 cid
            (insertMsg st1 cid "user" question).2.id question) with
       | .error e => ⟨(insertMsg st1 cid "user" question).1,
           some (assembleHistory (insertMsg st1 cid "user" question).1 cid
             (insertMsg st1 cid "user" question).2.id question), .error e⟩
       | .ok answer => ⟨(insertMsg (insertMsg st1 cid "user" question).1 cid "assistant" answer).1,
           some (assembleHistory (insertMsg st1 cid "user" question).1 cid
             (insertMsg st1 cid "user" question).2.id question), .ok ⟨answer, cid⟩⟩) := by
  unfold ChatService.query
  rw [hres]

theorem query_stream_unfold (st : Store) (user : UserT) (cid? : Option Nat) (question : String)
    (upstream : StreamReq → List Line × Option String) (st1 : Store) (cid : Nat)
    (hres : resolveConv st user cid? question = .ok (st1, cid)) :
    ChatService.query_stream st user cid? question upstream =
      (match (upstream ⟨question⟩).2 with
       | some emsg => ⟨(insertMsg st1 cid "user" question).1, some ⟨question⟩,
           YieldEvent.convId cid :: (upstream ⟨question⟩).1.map YieldEvent.upstreamLine,
           .error emsg⟩
       | none =>
         if accumAnswer (upstream ⟨question⟩).1 = "" then
           ⟨(insertMsg st1 cid "user" question).1, some ⟨question⟩,
             YieldEvent.convId cid :: (upstream ⟨question⟩).1.map YieldEvent.upstreamLine, .ok ()⟩
         else
           ⟨(insertMsg (insertMsg st1 cid "user" question).1 cid "assistant"
               (accumAnswer (upstream ⟨question⟩).1)).1, some ⟨question⟩,
             YieldEvent.convId cid :: (upstream ⟨question⟩).1.map YieldEvent.upstreamLine, .ok ()⟩) := by
  unfold ChatService.query_stream
  rw [hres]

theorem resolve_ok_exists (st : Store) (user : UserT) (cid? : Option Nat) (question : String)
    (h : ResolvedOk st user cid?) :
    ∃ st1 cid, resolveConv st user cid? question = .ok (st1, cid) ∧ st1.msgs = st.msgs := by
  rcases h with rfl | ⟨cid, conv, rfl, hfind, hown⟩
  · refine ⟨(insertConv st user.id
      (if question.length > 50 then question.take 50 ++ "..." else question)).1, st.nextId, ?_, rfl⟩
    simp [resolveConv, insertConv]
  · refine ⟨bumpConv st cid, cid, ?_, rfl⟩
    simp [resolveConv, hfind, hown]

/-- C3: in every chat turn (blocking or streaming) whose conversation
resolution succeeds, exactly one `user`-role message is appended to the
store, carrying the question, and it is present in the final store for
every upstream outcome — in particular when the upstream delegate fails,
so the persisted user message is never rolled back.  (The quantification
over arbitrary upstream delegates, including ones that always fail,
captures that the persistence does not depend on the upstream call.) -/
theorem C3_one_user_message (st : Store) (user : UserT) (cid? : Option Nat) (question : String)
    (upstream : List RC → Except String String)
    (upstreamS : StreamReq → List Line × Option String)
    (h : ResolvedOk st user cid?) :
    (∃ rest : List Msg,
      (ChatService.query st user cid? question upstream).store.msgs = st.msgs ++ rest ∧
      ∃ m : Msg, rest.filter (fun x => x.role == "user") = [m] ∧ m.content = question) ∧
    (∃ rest : List Msg,
      (ChatService.query_stream st user cid? question upstreamS).store.msgs = st.msgs ++ rest ∧
      ∃ m : Msg, rest.filter (fun x => x.role == "user") = [m] ∧ m.content = question) := by
  obtain ⟨st1, cid, hres, hmsgs⟩ := resolve_ok_exists st user cid? question h
  constructor
  · rw [query_unfold st user cid? question upstream st1 cid hres]
    split
    · refine ⟨[⟨st1.nextId, cid, "user", question, st1.clock⟩], ?_, ?_⟩
      · simp [insertMsg, hmsgs]
      · exact ⟨⟨st1.nextId, cid, "user", question, st1.clock⟩, by simp, rfl⟩
    · next answer heq =>
      refine ⟨[⟨st1.nextId, cid, "user", question, st1.clock⟩,
        ⟨st1.nextId + 1, cid, "assistant", answer, st1.clock + 1⟩], ?_, ?_⟩
      · simp [insertMsg, hmsgs]
      · exact ⟨⟨st1.nextId, cid, "user", question, st1.clock⟩, by simp, rfl⟩
  · rw [query_stream_unfold st user cid? question upstreamS st1 cid hres]
    split
    · refine ⟨[⟨st1.nextId, cid, "user", question, st1.clock⟩], ?_, ?_⟩
      · simp [insertMsg, hmsgs]
      · exact ⟨⟨st1.nextId, cid, "user", question, st1.clock⟩, by simp, rfl⟩
    · split
      · refine ⟨[⟨st1.nextId, cid, "user", question, st1.clock⟩], ?_, ?_⟩
        · simp [insertMsg, hmsgs]
        · exact ⟨⟨st1.nextId, cid, "user", question, st1.clock⟩, by simp, rfl⟩
      · refine ⟨[⟨st1.nextId, cid, "user", question, st1.clock⟩,
          ⟨st1.nextId + 1, cid, "assistant", accumAnswer (upstreamS ⟨question⟩).1,
            st1.clock + 1⟩], ?_, ?_⟩
        · simp [insertMsg, hmsgs]
        · exact ⟨⟨st1.nextId, cid, "user", question, st1.clock⟩, by simp, rfl⟩

/-- Witness for C3 at a concrete input: a blocking and a streaming turn on
the existing conversation 1 of `stW` each append exactly one user message
carrying the question. -/
theorem C3_witness :
    (∃ rest : List Msg,
      (ChatService.query stW uW (some 1) "q" upstreamOkW).store.msgs = stW.msgs ++ rest ∧
      ∃ m : Msg, rest.filter (fun x => x.role == "user") = [m] ∧ m.content = "q") ∧
    (∃ rest : List Msg,
      (ChatService.query_stream stW uW (some 1) "q" upstreamStreamW).store.msgs
        = stW.msgs ++ rest ∧
      ∃ m : Msg, rest.filter (fun x => x.role == "user") = [m] ∧ m.content = "q") :=
  C3_one_user_message stW uW (some 1) "q" upstreamOkW upstreamStreamW
    (Or.inr ⟨1, ⟨1, "t", 7, 0, 1⟩, rfl, by decide, by decide⟩)

/-- C2: a streaming chat turn whose upstream stream is abandoned or errors
before completion (modelled by the delegate reporting an abort after the
frames it yielded) persists no assistant message: the only message added
by the turn is the user message persisted earlier, which remains, and the
turn ends in the propagated error. -/
theorem C2_abandoned_stream (st : Store) (user : UserT) (cid? : Option Nat) (question : String)
    (upstreamS : StreamReq → List Line × Option String)
    (h : ResolvedOk st user cid?)
    (emsg : String) (habort : (upstreamS ⟨question⟩).2 = some emsg) :
    ∃ m : Msg,
      (ChatService.query_stream st user cid? question upstreamS).store.msgs = st.msgs ++ [m] ∧
      m.role = "user" ∧ m.content = question ∧
      (ChatService.query_stream st user cid? question upstreamS).outcome = .error emsg := by
  obtain ⟨st1, cid, hres, hmsgs⟩ := resolve_ok_exists st user cid? question h
  rw [query_stream_unfold st user cid? question upstreamS st1 cid hres, habort]
  exact ⟨⟨st1.nextId, cid, "user", question, st1.clock⟩, by simp [insertMsg, hmsgs], rfl, rfl, rfl⟩

/-- Witness for C2 at a concrete input: a stream cut after one token frame
(no `done`) leaves the user question persisted and no assistant message. -/
theorem C2_witness :
    ∃ m : Msg,
      (ChatService.query_stream stW uW (some 1) "q"
          (fun _ => ([Line.data (some ⟨some "token", "par"⟩)], some "connection lost"))).store.msgs
        = stW.msgs ++ [m] ∧
      m.role = "user" ∧ m.content = "q" ∧
      (ChatService.query_stream stW uW (some 1) "q"
          (fun _ => ([Line.data (some ⟨some "token", "par"⟩)], some "connection lost"))).outcome
        = .error "connection lost" :=
  C2_abandoned_stream stW uW (some 1) "q"
    (fun _ => ([Line.data (some ⟨some "token", "par"⟩)], some "connection lost"))
    (Or.inr ⟨1, ⟨1, "t", 7, 0, 1⟩, rfl, by decide, by decide⟩) "connection lost" rfl

theorem accumAnswer_empty (lines : List Line)
    (h : ∀ l ∈ lines, ∀ e : JEvent, l = Line.data (some e) → e.ty = some "token" →
      e.content = "") :
    accumAnswer lines = "" := by
  have gen : ∀ acc : String, lines.foldl stepAnswer acc = acc := by
    induction lines with
    | nil => intro acc; rfl
    | cons l ls ih =>
      intro acc
      have hstep : stepAnswer acc l = acc := by
        cases l with
        | plain => rfl
        | data ev =>
          cases ev with
          | none => rfl
          | some e =>
            simp only [stepAnswer]
            by_cases hty : e.ty = some "token"
            · rw [if_pos hty, h (Line.data (some e)) (by simp) e rfl hty]
              exact String.append_empty acc
            · rw [if_neg hty]
      rw [List.foldl_cons, hstep]
      exact ih (fun l hl => h l (by simp [hl])) acc
  exact gen ""

/-- C10: a streaming chat turn whose upstream stream completes (is fully
drained) but yields no token-type frame with non-empty content has an
empty accumulated answer, and persists no assistant message: the only
message the turn added is the user message, even though the turn finishes
without error. -/
theorem C10_empty_answer_not_persisted (st : Store) (user : UserT) (cid? : Option Nat)
    (question : String) (upstreamS : StreamReq → List Line × Option String)
    (h : ResolvedOk st user cid?)
    (hdone : (upstreamS ⟨question⟩).2 = none)
    (htok : ∀ l ∈ (upstreamS ⟨question⟩).1, ∀ e : JEvent,
      l = Line.data (some e) → e.ty = some "token" → e.content = "") :
    accumAnswer (upstreamS ⟨question⟩).1 = "" ∧
    (∃ m : Msg,
      (ChatService.query_stream st user cid? question upstreamS).store.msgs = st.msgs ++ [m] ∧
      m.role = "user" ∧ m.content = question) ∧
    (ChatService.query_stream st user cid? question upstreamS).outcome = .ok () := by
  obtain ⟨st1, cid, hres, hmsgs⟩ := resolve_ok_exists st user cid? question h
  have hacc : accumAnswer (upstreamS ⟨question⟩).1 = "" := accumAnswer_empty _ htok
  refine ⟨hacc, ?_, ?_⟩
  · rw [query_stream_unfold st user cid? question upstreamS st1 cid hres, hdone, if_pos hacc]
    exact ⟨⟨st1.nextId, cid, "user", question, st1.clock⟩, by simp [insertMsg, hmsgs], rfl, rfl⟩
  · rw [query_stream_unfold st user cid? question upstreamS st1 cid hres, hdone, if_pos hacc]

/-- Witness for C10 at a concrete input: a drained stream consisting of a
retrieval event, a malformed line, a non-data line and a `done` frame
(no tokens) persists no assistant message and finishes without error. -/
theorem C10_witness :
    accumAnswer [Line.data (some ⟨some "retrieval_start", ""⟩), Line.data none, Line.plain,
        Line.data (some ⟨some "done", ""⟩)] = "" ∧
    (∃ m : Msg,
      (ChatService.query_stream stW uW (some 1) "q"
          (fun _ => ([Line.data (some ⟨some "retrieval_start", ""⟩), Line.data none, Line.plain,
            Line.data (some ⟨some "done", ""⟩)], none))).store.msgs = stW.msgs ++ [m] ∧
      m.role = "user" ∧ m.content = "q") ∧
    (ChatService.query_stream stW uW (some 1) "q"
        (fun _ => ([Line.data (some ⟨some "retrieval_start", ""⟩), Line.data none, Line.plain,
          Line.data (some ⟨some "done", ""⟩)], none))).outcome = .ok () :=
  C10_empty_answer_not_persisted stW uW (some 1) "q"
    (fun _ => ([Line.data (some ⟨some "retrieval_start", ""⟩), Line.data none, Line.plain,
      Line.data (some ⟨some "done", ""⟩)], none))
    (Or.inr ⟨1, ⟨1, "t", 7, 0, 1⟩, rfl, by decide, by decide⟩) rfl
    (by
      intro l hl e he hty
      subst he
      simp only [List.mem_cons, List.not_mem_nil, or_false] at hl
      rcases hl with h1 | h1 | h1 | h1 <;> simp_all)

theorem find?_append_right {α : Type} (l : List α) (p : α → Bool) (c : α)
    (hl : ∀ x ∈ l, p x = false) (hc : p c = true) :
    (l ++ [c]).find? p = some c := by
  induction l with
  | nil => simp [List.find?, hc]
  | cons a l ih =>
    have ha : p a = false := hl a (by simp)
    simp only [List.cons_append, List.find?, ha]
    exact ih (fun x hx => hl x (by simp [hx]))

/-- C8: a chat turn that appends messages to a conversation also updates
that conversation's `updated_at`: `append_message` itself never touches
the conversations collection, while the orchestrator explicitly bumps
`updated_at` to the turn's time when it touches an existing conversation
(in both blocking and streaming mode, and for every upstream outcome),
and a freshly created conversation gets the turn's time as its
`updated_at` at creation. -/
theorem C8_updated_at_bumped (st : Store) (user : UserT) (question : String)
    (cid : Nat) (conv : Conv)
    (upstream : List RC → Except String String)
    (upstreamS : StreamReq → List Line × Option String)
    (hwf : StoreWF st)
    (hfind : findConv st cid = some conv) (hown : conv.userId = user.id) :
    (∀ (st' : Store) (c : Nat) (r t : String), (insertMsg st' c r t).1.convs = st'.convs) ∧
    (∃ conv1 : Conv,
      findConv (ChatService.query st user (some cid) question upstream).store cid = some conv1 ∧
      conv1.updated_at = st.clock ∧ conv.updated_at < conv1.updated_at) ∧
    (∃ conv1 : Conv,
      findConv (ChatService.query_stream st user (some cid) question upstreamS).store cid
        = some conv1 ∧
      conv1.updated_at = st.clock ∧ conv.updated_at < conv1.updated_at) ∧
    (∃ c : Conv,
      findConv (ChatService.query st user none question upstream).store c.id = some c ∧
      c.userId = user.id ∧ c.updated_at = st.clock) := by
  have hres : resolveConv st user (some cid) question = .ok (bumpConv st cid, cid) := by
    simp [resolveConv, hfind, hown]
  have hbump : findConv (bumpConv st cid) cid = some { conv with updated_at := st.clock } := by
    rw [findConv_bumpConv, hfind]; rfl
  have hlt : conv.updated_at < st.clock :=
    hwf.2.2.2.2.2.2 conv (List.mem_of_find?_eq_some hfind)
  refine ⟨fun _ _ _ _ => rfl, ?_, ?_, ?_⟩
  · rw [query_unfold st user (some cid) question upstream (bumpConv st cid) cid hres]
    split
    · exact ⟨{ conv with updated_at := st.clock }, hbump, rfl, hlt⟩
    · exact ⟨{ conv with updated_at := st.clock }, hbump, rfl, hlt⟩
  · rw [query_stream_unfold st user (some cid) question upstreamS (bumpConv st cid) cid hres]
    split
    · exact ⟨{ conv with updated_at := st.clock }, hbump, rfl, hlt⟩
    · split
      · exact ⟨{ conv with updated_at := st.clock }, hbump, rfl, hlt⟩
      · exact ⟨{ conv with updated_at := st.clock }, hbump, rfl, hlt⟩
  · have hres0 : resolveConv st user none question
        = .ok ((insertConv st user.id
            (if question.length > 50 then question.take 50 ++ "..." else question)).1,
          st.nextId) := by
      simp [resolveConv, insertConv]
    rw [query_unfold st user none question upstream _ st.nextId hres0]
    have hfindnew : ∀ stf : Store, stf.convs = st.convs ++
        [⟨st.nextId,
          if question.length > 50 then question.take 50 ++ "..." else question,
          user.id, st.clock, st.clock⟩] →
        findConv stf st.nextId = some ⟨st.nextId,
          if question.length > 50 then question.take 50 ++ "..." else question,
          user.id, st.clock, st.clock⟩ := by
      intro stf hconvs
      rw [findConv, hconvs]
      apply find?_append_right
      · intro x hx
        have hxlt : x.id < st.nextId := hwf.2.2.2.2.2.1 x hx
        simp only [beq_eq_false_iff_ne, ne_eq]
        omega
      · simp
    split
    · exact ⟨⟨st.nextId,
        if question.length > 50 then question.take 50 ++ "..." else question,
        user.id, st.clock, st.clock⟩, hfindnew _ rfl, rfl, rfl⟩
    · exact ⟨⟨st.nextId,
        if question.length > 50 then question.take 50 ++ "..." else question,
        user.id, st.clock, st.clock⟩, hfindnew _ rfl, rfl, rfl⟩

/-- Witness for C8 at a concrete input: a blocking and a streaming turn on
conversation 1 of `stW` leave its `updated_at` equal to the turn's clock
value 4, strictly above the previous value 1, and a fresh-conversation
turn creates its conversation with `updated_at` 4. -/
theorem C8_witness :
    (∀ (st' : Store) (c : Nat) (r t : String), (insertMsg st' c r t).1.convs = st'.convs) ∧
    (∃ conv1 : Conv,
      findConv (ChatService.query stW uW (some 1) "q" upstreamOkW).store 1 = some conv1 ∧
      conv1.updated_at = stW.clock ∧ (1 : Nat) < conv1.updated_at) ∧
    (∃ conv1 : Conv,
      findConv (ChatService.query_stream stW uW (some 1) "q" upstreamStreamW).store 1
        = some conv1 ∧
      conv1.updated_at = stW.clock ∧ (1 : Nat) < conv1.updated_at) ∧
    (∃ c : Conv,
      findConv (ChatService.query stW uW none "q" upstreamOkW).store c.id = some c ∧
      c.userId = uW.id ∧ c.updated_at = stW.clock) :=
  C8_updated_at_bumped stW uW "q" 1 ⟨1, "t", 7, 0, 1⟩ upstreamOkW upstreamStreamW
    (by decide) (by decide) (by decide)

/-- C4 (amended): in blocking mode the assembled history has at most 10
prior messages of the resolved conversation in strictly chronological
order followed by the just-persisted question as its final element (so at
most 11 entries), and exactly this list is the message list forwarded
upstream; in streaming mode no history is assembled — the upstream request
carries only the bare question (the `StreamReq` type mirrors the request
body of `chat_query_stream`, which has no message-list field). -/
theorem C4_amended_history (st : Store) (user : UserT) (cid? : Option Nat) (question : String)
    (upstream : List RC → Except String String)
    (upstreamS : StreamReq → List Line × Option String)
    (hwf : StoreWF st) (h : ResolvedOk st user cid?) :
    (∃ (cid : Nat) (pre : List Msg),
      (ChatService.query st user cid? question upstream).sent
        = some (pre.map (fun m => (⟨m.role, m.content⟩ : RC)) ++ [⟨"user", question⟩]) ∧
      pre.length ≤ 10 ∧
      List.Pairwise (fun a b : Msg => a.timestamp < b.timestamp) pre ∧
      (∀ m ∈ pre, m.conv = cid)) ∧
    (ChatService.query_stream st user cid? question upstreamS).sentReq = some ⟨question⟩ := by
  obtain ⟨st1, cid, hres, hmsgs⟩ := resolve_ok_exists st user cid? question h
  have hold : ∃ old : List Msg,
      convMsgs st1 cid = old ∧
      (∀ m ∈ old, m.timestamp < st1.clock) ∧
      (∀ m ∈ old, m.id ≠ st1.nextId) ∧
      List.Pairwise (fun a b : Msg => a.timestamp < b.timestamp) old ∧
      (∀ m ∈ old, m.conv = cid) := by
    refine ⟨convMsgs st1 cid, rfl, ?_, ?_, ?_, ?_⟩
    · intro m hm
      have hm' : m ∈ st1.msgs := List.mem_of_mem_filter hm
      rw [hmsgs] at hm'
      have h1 : m.timestamp < st.clock := hwf.2.2.1 m hm'
      have h2 : st.clock ≤ st1.clock := by
        rcases h with rfl | ⟨cid', conv, hcid, hfind, hown⟩
        · simp only [resolveConv, insertConv] at hres
          cases hres; simp
        · rw [hcid] at hres
          simp only [resolveConv, hfind, hown, if_pos] at hres
          cases hres; simp [bumpConv]
      omega
    · intro m hm
      have hm' : m ∈ st1.msgs := List.mem_of_mem_filter hm
      rw [hmsgs] at hm'
      have h1 : m.id < st.nextId := hwf.1 m hm'
      have h2 : st.nextId ≤ st1.nextId := by
        rcases h with rfl | ⟨cid', conv, hcid, hfind, hown⟩
        · simp only [resolveConv, insertConv] at hres
          cases hres; simp
        · rw [hcid] at hres
          simp only [resolveConv, hfind, hown, if_pos] at hres
          cases hres; simp [bumpConv]
      omega
    · have hsub : List.Sublist (convMsgs st1 cid) st1.msgs := List.filter_sublist st1.msgs
      rw [hmsgs] at hsub
      exact (hwf.2.2.2.1).sublist hsub
    · intro m hm
      have := List.of_mem_filter hm
      simpa using this
  obtain ⟨old, holdc, hts, hid, hpwold, hconvmem⟩ := hold
  have hconv2 : convMsgs (insertMsg st1 cid "user" question).1 cid
      = old ++ [(insertMsg st1 cid "user" question).2] := by
    rw [convMsgs_insertMsg, holdc]
  have hfetch : fetchHistory (insertMsg st1 cid "user" question).1 cid
      (insertMsg st1 cid "user" question).2.id = ((sortDescTs old).take 10).reverse := by
    exact fetchHistory_eq _ cid _ old hconv2 hts hid
  have hshape := fetchHistory_shape old hpwold
  refine ⟨⟨cid, ((sortDescTs old).take 10).reverse, ?_, hshape.2, hshape.1, ?_⟩, ?_⟩
  · rw [query_unfold st user cid? question upstream st1 cid hres]
    split
    · show some (assembleHistory _ cid _ question) = _
      rw [assembleHistory, hfetch]
    · show some (assembleHistory _ cid _ question) = _
      rw [assembleHistory, hfetch]
  · intro m hm
    exact hconvmem m (mem_of_mem_fetch old m hm)
  · rw [query_stream_unfold st user cid? question upstreamS st1 cid hres]
    split
    · rfl
    · split <;> rfl

/-- Witness for C4 (amended) at a concrete input: a turn on conversation 1
of `stW` forwards a bounded chronological history ending in the question
in blocking mode, and only the bare question in streaming mode. -/
theorem C4_witness :
    (∃ (cid : Nat) (pre : List Msg),
      (ChatService.query stW uW (some 1) "q" upstreamOkW).sent
        = some (pre.map (fun m => (⟨m.role, m.content⟩ : RC)) ++ [⟨"user", "q"⟩]) ∧
      pre.length ≤ 10 ∧
      List.Pairwise (fun a b : Msg => a.timestamp < b.timestamp) pre ∧
      (∀ m ∈ pre, m.conv = cid)) ∧
    (ChatService.query_stream stW uW (some 1) "q" upstreamStreamW).sentReq = some ⟨"q"⟩ :=
  C4_amended_history stW uW (some 1) "q" upstreamOkW upstreamStreamW (by decide)
    (Or.inr ⟨1, ⟨1, "t", 7, 0, 1⟩, rfl, by decide, by decide⟩)

/-- The same store as `stW` but with no messages yet in conversation 1. -/
def stWempty : Store := ⟨[], [⟨1, "t", 7, 0, 1⟩], [], 4, 4⟩

/-- C4 counterexample: the claim requires the assembled history to be the
exact message list forwarded upstream in streaming mode as well.  On
conversation 1 of `stW` the blocking turn forwards the three-entry
assembled history, but the streaming turn's upstream request carries only
the bare question, and the whole streaming interaction (yielded events and
outcome) is identical to the one on `stWempty`, where the conversation has
no prior messages and the assembled history would be the single-entry
list: the assembled message list is not forwarded upstream in streaming
mode. -/
theorem C4_counterexample :
    (ChatService.query stW uW (some 1) "q" upstreamOkW).sent
      = some [⟨"user", "m1"⟩, ⟨"assistant", "a1"⟩, ⟨"user", "q"⟩] ∧
    (ChatService.query stWempty uW (some 1) "q" upstreamOkW).sent = some [⟨"user", "q"⟩] ∧
    (ChatService.query_stream stW uW (some 1) "q" upstreamStreamW).sentReq = some ⟨"q"⟩ ∧
    (ChatService.query_stream stW uW (some 1) "q" upstreamStreamW).yields
      = (ChatService.query_stream stWempty uW (some 1) "q" upstreamStreamW).yields ∧
    (ChatService.query_stream stW uW (some 1) "q" upstreamStreamW).outcome
      = (ChatService.query_stream stWempty uW (some 1) "q" upstreamStreamW).outcome := by
  refine ⟨?_, ?_, ?_, ?_, ?_⟩ <;> decide

theorem find?_id_unique : ∀ (l : List UserT) (uid : Nat) (u : UserT),
    (l.map (fun x => x.id)).Nodup →
    l.find? (fun x => x.id == uid) = some u →
    ∀ v ∈ l, v.id = uid → v = u := by
  intro l
  induction l with
  | nil => intro uid u _ hf; cases hf
  | cons a l ih =>
    intro uid u hnd hf v hv hvid
    rw [List.map_cons, List.nodup_cons] at hnd
    by_cases ha : a.id = uid
    · rw [List.find?_cons_of_pos _ (by simpa using ha)] at hf
      have hu : u = a := (Option.some_inj.mp hf).symm
      rcases List.mem_cons.mp hv with rfl | hv'
      · exact hu.symm
      · exfalso
        exact hnd.1 (by simpa [hvid, ha] using List.mem_map_of_mem (fun x => x.id) hv')
    · rw [List.find?_cons_of_neg _ (by simpa using ha)] at hf
      rcases List.mem_cons.mp hv with rfl | hv'
      · exact absurd hvid ha
      · exact ih uid u hnd.2 hf v hv' hvid

theorem count_filter_keep : ∀ (l : List UserT) (uid : Nat),
    (∀ v ∈ l, (v.role == "superadmin" && v.is_active) = true → (v.id == uid) = false) →
    ((l.filter (fun v => !(v.id == uid))).filter
        (fun v => v.role == "superadmin" && v.is_active)).length
      = (l.filter (fun v => v.role == "superadmin" && v.is_active)).length := by
  intro l
  induction l with
  | nil => intro uid _; rfl
  | cons a l ih =>
    intro uid h
    have ih' := ih uid (fun v hv => h v (by simp [hv]))
    by_cases hsa : (a.role == "superadmin" && a.is_active) = true
    · have hid : (a.id == uid) = false := h a (by simp) hsa
      simp [List.filter_cons, hid, hsa, ih', -List.filter_filter]
    · have hsa' : (a.role == "superadmin" && a.is_active) = false := by
        simpa using hsa
      by_cases hid : (a.id == uid) = true
      · simp [List.filter_cons, hid, hsa', ih', -List.filter_filter]
      · have hid' : (a.id == uid) = false := by simpa using hid
        simp [List.filter_cons, hid', hsa', ih', -List.filter_filter]

theorem count_filter_drop_one : ∀ (l : List UserT) (uid : Nat),
    (l.map (fun x => x.id)).Nodup →
    (l.filter (fun v => v.role == "superadmin" && v.is_active)).length
      ≤ ((l.filter (fun v => !(v.id == uid))).filter
          (fun v => v.role == "superadmin" && v.is_active)).length + 1 := by
  intro l
  induction l with
  | nil => intro uid _; simp
  | cons a l ih =>
    intro uid hnd
    rw [List.map_cons, List.nodup_cons] at hnd
    have ih' := ih uid hnd.2
    by_cases hid : (a.id == uid) = true
    · have hrest : l.filter (fun v => !(v.id == uid)) = l := by
        apply List.filter_eq_self.mpr
        intro v hv
        have hne : v.id ≠ uid := by
          intro hc
          exact hnd.1 (by simpa [hc, (by simpa using hid : a.id = uid)]
            using List.mem_map_of_mem (fun x => x.id) hv)
        simpa using hne
      by_cases hsa : (a.role == "superadmin" && a.is_active) = true
      · simp [List.filter_cons, hid, hsa, hrest, -List.filter_filter]
      · have hsa' : (a.role == "superadmin" && a.is_active) = false := by simpa using hsa
        simp [List.filter_cons, hid, hsa', hrest, -List.filter_filter]
    · have hid' : (a.id == uid) = false := by simpa using hid
      by_cases hsa : (a.role == "superadmin" && a.is_active) = true
      · simp only [List.filter_cons, hid', hsa, Bool.not_false, if_true, ite_true, ite_false,
          List.length_cons]
        omega
      · have hsa' : (a.role == "superadmin" && a.is_active) = false := by simpa using hsa
        simp [List.filter_cons, hid', hsa', -List.filter_filter]
        omega

/-- C6: deleting the last active superadmin is rejected (store unchanged),
so any store with at least one active superadmin still has one after any
`delete_user` call; deleting a user who is not the last active superadmin
(requested by a different user) succeeds and cascades: the user, all of
the user's conversations and all messages of those conversations are
gone, while other users' conversations and messages survive.  The `hnd`
hypothesis is id-uniqueness of the users collection, which the store
enforces. -/
theorem C6_superadmin_deletion (st : Store) (cu : UserT) (uid : Nat)
    (hnd : (st.users.map (fun x => x.id)).Nodup) :
    (∀ u, findUser st uid = some u → u.role = "superadmin" →
      activeSuperadminCount st ≤ 1 → uid ≠ cu.id →
      delete_user st cu uid = (st, .error ⟨400, "Cannot delete the last active superadmin."⟩)) ∧
    (1 ≤ activeSuperadminCount st → 1 ≤ activeSuperadminCount (delete_user st cu uid).1) ∧
    (∀ u, findUser st uid = some u → uid ≠ cu.id →
      ¬(u.role = "superadmin" ∧ activeSuperadminCount st ≤ 1) →
      (delete_user st cu uid).2
          = .ok ("User " ++ u.email ++ " and all associated data deleted permanently") ∧
      findUser (delete_user st cu uid).1 uid = none ∧
      (∀ c ∈ (delete_user st cu uid).1.convs, c.userId ≠ uid) ∧
      (∀ m ∈ (delete_user st cu uid).1.msgs, ∀ c ∈ st.convs, c.userId = uid → m.conv ≠ c.id) ∧
      (∀ c ∈ st.convs, c.userId ≠ uid → c ∈ (delete_user st cu uid).1.convs) ∧
      (∀ m ∈ st.msgs, (∀ c ∈ st.convs, ¬(c.userId = uid ∧ c.id = m.conv)) →
        m ∈ (delete_user st cu uid).1.msgs)) := by
  refine ⟨?_, ?_, ?_⟩
  · intro u hfu hrole hcnt hne
    simp [delete_user, hne, hfu, hrole, hcnt]
  · intro hpos
    by_cases h1 : uid = cu.id
    · simpa [delete_user, h1] using hpos
    · cases hfu : findUser st uid with
      | none => simpa [delete_user, h1, hfu] using hpos
      | some u =>
        by_cases h2 : u.role = "superadmin" ∧ activeSuperadminCount st ≤ 1
        · simpa [delete_user, h1, hfu, h2] using hpos
        · have husers : (delete_user st cu uid).1.users
              = st.users.filter (fun v => !(v.id == u.id)) := by
            simp [delete_user, h1, hfu, h2]
          have huid : u.id = uid := by
            simpa using List.find?_some hfu
          rw [activeSuperadminCount] at hpos ⊢
          rw [husers, huid]
          by_cases hsa : (u.role == "superadmin" && u.is_active) = true
          · have hrole : u.role = "superadmin" := by
              have h3 := hsa
              simp only [Bool.and_eq_true, beq_iff_eq] at h3
              exact h3.1
            have hgt : ¬ activeSuperadminCount st ≤ 1 := fun hle => h2 ⟨hrole, hle⟩
            rw [activeSuperadminCount] at hgt
            have hdrop := count_filter_drop_one st.users uid hnd
            omega
          · have hall : ∀ v ∈ st.users,
                (v.role == "superadmin" && v.is_active) = true → (v.id == uid) = false := by
              intro v hv hSAv
              cases hb : (v.id == uid) with
              | false => rfl
              | true =>
                exfalso
                have hvid : v.id = uid := by simpa using hb
                have hvu : v = u := find?_id_unique st.users uid u hnd hfu v hv hvid
                rw [hvu] at hSAv
                exact hsa hSAv
            have hkeep := count_filter_keep st.users uid hall
            omega
  · intro u hfu hne h2
    have huid : u.id = uid := by
      simpa using List.find?_some hfu
    have hstore1 : (delete_user st cu uid).1
        = { st with
            users := st.users.filter (fun v => !(v.id == u.id)),
            convs := st.convs.filter (fun c => !(c.userId == u.id)),
            msgs := st.msgs.filter (fun m =>
              !((st.convs.filter (fun c => c.userId == u.id)).map (fun c => c.id)).contains
                m.conv) } := by
      simp [delete_user, hne, hfu, h2]
    have hstore2 : (delete_user st cu uid).2
        = .ok ("User " ++ u.email ++ " and all associated data deleted permanently") := by
      simp [delete_user, hne, hfu, h2]
    refine ⟨hstore2, ?_, ?_, ?_, ?_, ?_⟩
    · rw [findUser, hstore1]
      rw [List.find?_eq_none]
      intro v hv
      have hvne := List.of_mem_filter hv
      simp only [Bool.not_eq_true', beq_eq_false_iff_ne, ne_eq] at hvne
      simp only [beq_iff_eq]
      omega
    · intro c hc
      rw [hstore1] at hc
      have hcne := List.of_mem_filter hc
      simp only [Bool.not_eq_true', beq_eq_false_iff_ne, ne_eq] at hcne
      omega
    · intro m hm c hc hcu
      rw [hstore1] at hm
      have hmne := List.of_mem_filter hm
      simp only [Bool.not_eq_true'] at hmne
      intro hconv
      have hcmem : c ∈ st.convs.filter (fun c => c.userId == u.id) :=
        List.mem_filter.mpr ⟨hc, by simp [hcu, huid]⟩
      have hcid : m.conv ∈ (st.convs.filter (fun c => c.userId == u.id)).map (fun c => c.id) :=
        List.mem_map.mpr ⟨c, hcmem, hconv.symm⟩
      have htrue : ((st.convs.filter (fun c => c.userId == u.id)).map
          (fun c => c.id)).contains m.conv = true := List.elem_iff.mpr hcid
      rw [hmne] at htrue
      cases htrue
    · intro c hc hcu
      rw [hstore1]
      refine List.mem_filter.mpr ⟨hc, ?_⟩
      simp only [Bool.not_eq_true', beq_eq_false_iff_ne, ne_eq]
      omega
    · intro m hm hno
      rw [hstore1]
      refine List.mem_filter.mpr ⟨hm, ?_⟩
      simp only [Bool.not_eq_true']
      cases helem : ((st.convs.filter (fun c => c.userId == u.id)).map
          (fun c => c.id)).contains m.conv with
      | false => rfl
      | true =>
        exfalso
        have hmem := List.elem_iff.mp helem
        obtain ⟨c, hcmem, hcid⟩ := List.mem_map.mp hmem
        have hcf := List.mem_filter.mp hcmem
        have hcuid : c.userId = u.id := by simpa using hcf.2
        exact hno c hcf.1 ⟨by omega, hcid⟩

/-- A store with two active superadmins (ids 1 and 2) and a regular user
(id 3); user 2 owns conversation 10 with two messages, user 3 owns
conversation 11 with one message. -/
def stAdmin : Store :=
  ⟨[⟨1, "root@x", true, true, "superadmin"⟩, ⟨2, "sa2@x", true, true, "superadmin"⟩,
    ⟨3, "u3@x", true, false, "user"⟩],
   [⟨10, "c10", 2, 0, 1⟩, ⟨11, "c11", 3, 0, 1⟩],
   [⟨20, 10, "user", "hi", 2⟩, ⟨21, 10, "assistant", "yo", 3⟩, ⟨22, 11, "user", "q", 4⟩],
   30, 5⟩

/-- A store whose only active superadmin is user 1. -/
def stOneSA : Store :=
  ⟨[⟨1, "root@x", true, true, "superadmin"⟩, ⟨3, "u3@x", true, false, "user"⟩], [], [], 30, 5⟩

/-- Witness for C6 at concrete inputs: deleting the last active superadmin
of `stOneSA` is rejected with the store unchanged; deleting superadmin 2
of `stAdmin` (which has another active superadmin) succeeds, keeps an
active superadmin, removes user 2, and cascades over user 2's
conversations and their messages. -/
theorem C6_witness :
    delete_user stOneSA ⟨3, "u3@x", true, false, "user"⟩ 1
      = (stOneSA, .error ⟨400, "Cannot delete the last active superadmin."⟩) ∧
    (delete_user stAdmin ⟨1, "root@x", true, true, "superadmin"⟩ 2).2
      = .ok ("User sa2@x and all associated data deleted permanently") ∧
    1 ≤ activeSuperadminCount (delete_user stAdmin ⟨1, "root@x", true, true, "superadmin"⟩ 2).1 ∧
    findUser (delete_user stAdmin ⟨1, "root@x", true, true, "superadmin"⟩ 2).1 2 = none ∧
    (∀ c ∈ (delete_user stAdmin ⟨1, "root@x", true, true, "superadmin"⟩ 2).1.convs,
      c.userId ≠ 2) ∧
    (∀ m ∈ (delete_user stAdmin ⟨1, "root@x", true, true, "superadmin"⟩ 2).1.msgs,
      ∀ c ∈ stAdmin.convs, c.userId = 2 → m.conv ≠ c.id) := by
  have hrej := (C6_superadmin_deletion stOneSA ⟨3, "u3@x", true, false, "user"⟩ 1
    (by decide)).1 ⟨1, "root@x", true, true, "superadmin"⟩ (by decide) rfl (by decide) (by decide)
  have hmain := C6_superadmin_deletion stAdmin ⟨1, "root@x", true, true, "superadmin"⟩ 2
    (by decide)
  have hsucc := hmain.2.2 ⟨2, "sa2@x", true, true, "superadmin"⟩ (by decide) (by decide)
    (by
      intro hcon
      have : activeSuperadminCount stAdmin = 2 := by decide
      omega)
  refine ⟨hrej, ?_, hmain.2.1 (by decide), hsucc.2.1, hsucc.2.2.1, hsucc.2.2.2.1⟩
  rw [hsucc.1]
  decide
